import Mathlib

/-!
Verification of the rattle-tree sequence module (`src/sequence.rs`).

Shallow embedding conventions:
* `Vec<T>` becomes `List T`; `clone` on values is the identity.
* `Link<S> = Rc<RefCell<S>>` becomes a node identifier `Nat`; the store of
  `RefCell` nodes is a heap `Nat → SequenceVal T`, and `link` is a function
  from heap to heap (`Except` models the panic path).
* `panic!` becomes `Except.error` carrying the panic message.
* A Rust iterator's `next(&mut self)` becomes a pure function returning the
  yielded `Option T` together with the successor iterator state.
-/

namespace RattleTree

/-- `SequenceVal<T>`: the immutable sequence segment.  `prev`/`next` are
optional links (`Option` of a node id standing for `Rc<RefCell<...>>`). -/
structure SequenceVal (T : Type) where
  sequence : List T
  prev : Option Nat
  next : Option Nat
deriving Repr, DecidableEq

/-- `SequenceBuilder<T>`: the mutable staging object, same three fields. -/
structure SequenceBuilder (T : Type) where
  sequence : List T
  prev : Option Nat
  next : Option Nat
deriving Repr, DecidableEq

/-- `Default for SequenceBuilder<T>`: empty sequence, no links. -/
def SequenceBuilder.default (T : Type) : SequenceBuilder T :=
  { sequence := [], prev := none, next := none }

/-- `SequenceBuilder::build(&self)`: clone the three fields into a fresh
`SequenceVal` (cloning a value is the identity in the embedding). -/
def SequenceBuilder.build (b : SequenceBuilder T) : SequenceVal T :=
  { sequence := b.sequence, prev := b.prev, next := b.next }

/-- `build` with the `&self` receiver made explicit: returns the produced
value together with the (unchanged) state of the builder after the call,
so that non-destructiveness is a statement rather than a convention. -/
def SequenceBuilder.buildProc (b : SequenceBuilder T) :
    SequenceVal T × SequenceBuilder T :=
  (b.build, b)

/-- `SequenceBuilder::push(&mut self, raw)`: `self.sequence.extend(raw.clone())`.
The returned `&Self` is the updated builder itself. -/
def SequenceBuilder.push (b : SequenceBuilder T) (raw : List T) :
    SequenceBuilder T :=
  { b with sequence := b.sequence ++ raw }

/-- `SequenceValIter<T>`: owns its `SequenceVal` plus a cursor. -/
structure SequenceValIter (T : Type) where
  owner : SequenceVal T
  cursor : Nat
deriving Repr, DecidableEq

/-- `SequenceVal::iter(self)`: a fresh iterator with cursor 0. -/
def SequenceVal.iter (v : SequenceVal T) : SequenceValIter T :=
  { owner := v, cursor := 0 }

/-- `Iterator::next for SequenceValIter`: if the cursor is within bounds,
yield the element at the cursor (cloned) and advance the cursor, else
yield `none` and leave the state untouched. -/
def SequenceValIter.next (it : SequenceValIter T) :
    Option T × SequenceValIter T :=
  if h : it.cursor < it.owner.sequence.length then
    (some (it.owner.sequence.get ⟨it.cursor, h⟩),
     { it with cursor := it.cursor + 1 })
  else
    (none, it)

/-- Running `next` repeatedly, `k` times, discarding the yielded items:
used to speak about "the k-th call to `next`". -/
def SequenceValIter.nextN (it : SequenceValIter T) : Nat → SequenceValIter T
  | 0 => it
  | k + 1 => (it.next).2.nextN k

/-- The `for x in ... { buf.push(x) }` loop of `concat`: call `next` until
it yields `none`, collecting the yielded elements in order. -/
def SequenceValIter.drain (it : SequenceValIter T) : List T :=
  match h : it.next with
  | (some x, it') => x :: it'.drain
  | (none, _) => []
termination_by it.owner.sequence.length - it.cursor
decreasing_by
  unfold SequenceValIter.next at h
  split at h
  · cases h
    simp only
    omega
  · cases h

/-- `SequenceBuilder::concat(head, tail)`: panic if `head.next` or
`tail.prev` is occupied, else drain `head.clone()` then `tail.clone()`
into a fresh buffer and build the new segment with `head.prev` and
`tail.next` cloned over. -/
def concat (head tail : SequenceVal T) : Except String (SequenceVal T) :=
  if (head.next).isSome then
    Except.error "head.tail is not None."
  else if (tail.prev).isSome then
    Except.error "tail.head is not None."
  else
    let buf := (SequenceVal.iter head).drain ++ (SequenceVal.iter tail).drain
    Except.ok { sequence := buf, prev := head.prev, next := tail.next }

/-- `concat` with the `&SequenceVal` borrows made explicit: returns the
result together with the post-call state of both operands (the code only
ever reads them — the iteration consumes `head.clone()`/`tail.clone()`,
not the operands themselves). -/
def concatProc (head tail : SequenceVal T) :
    Except String (SequenceVal T × SequenceVal T × SequenceVal T) :=
  if (head.next).isSome then
    Except.error "head.tail is not None."
  else if (tail.prev).isSome then
    Except.error "tail.head is not None."
  else
    let headClone := head
    let tailClone := tail
    let buf := (SequenceVal.iter headClone).drain ++ (SequenceVal.iter tailClone).drain
    Except.ok ({ sequence := buf, prev := head.prev, next := tail.next },
               head, tail)

/-- The store of `Rc<RefCell<SequenceVal<T>>>` nodes, addressed by id. -/
def Heap (T : Type) := Nat → SequenceVal T

/-- Writing one `RefCell` node of the store. -/
def Heap.set (heap : Heap T) (i : Nat) (v : SequenceVal T) : Heap T :=
  fun j => if j = i then v else heap j

/-- Reading one `RefCell` node of the store. -/
def Heap.get (heap : Heap T) (i : Nat) : SequenceVal T := heap i

/-- `SequenceBuilder::link(first, second)`: panic if `first`'s `next` or
`second`'s `prev` is occupied; otherwise set `first.next := Some(second)`
then `second.prev := Some(first)`, each through a fresh `borrow_mut` (the
second assignment therefore reads the store already updated by the
first, which matters when `first = second`).  The function returns the
outcome (`ok`, or `error` for the panic) paired with the store as it
stands when the call ends — on the panic path that is the store exactly
as it was, because both checks precede both assignments. -/
def link (heap : Heap T) (first second : Nat) :
    Except String Unit × Heap T :=
  if ((heap.get first).next).isSome then
    (Except.error "first.next is not None.", heap)
  else if ((heap.get second).prev).isSome then
    (Except.error "second.prev is not None.", heap)
  else
    let h1 := heap.set first { heap.get first with next := some second }
    let h2 := h1.set second { h1.get second with prev := some first }
    (Except.ok (), h2)

/-! ## Helper lemmas -/

/-- Draining from cursor `c` yields exactly the owner's elements from
position `c` on (induction on the remaining distance to the end). -/
theorem SequenceValIter.drain_eq_aux (n : Nat) :
    ∀ it : SequenceValIter T, it.owner.sequence.length - it.cursor ≤ n →
      it.drain = it.owner.sequence.drop it.cursor := by
  induction n with
  | zero =>
    intro it hle
    rw [SequenceValIter.drain]
    split
    · next x it' heq =>
      unfold SequenceValIter.next at heq
      split at heq
      · next hlt => omega
      · cases heq
    · next p heq =>
      unfold SequenceValIter.next at heq
      split at heq
      · next hlt => omega
      · next hge =>
        exact (List.drop_eq_nil_of_le (by omega)).symm
  | succ n ih =>
    intro it hle
    rw [SequenceValIter.drain]
    split
    · next x it' heq =>
      unfold SequenceValIter.next at heq
      split at heq
      · next hlt =>
        obtain ⟨h1, h2⟩ := Prod.mk.injEq .. ▸ heq
        cases h1
        cases h2
        rw [ih _ (by simp only; omega)]
        simp only
        rw [List.get_eq_getElem]
        exact (List.drop_eq_getElem_cons hlt).symm
      · cases heq
    · next p heq =>
      unfold SequenceValIter.next at heq
      split at heq
      · cases heq
      · next hge =>
        exact (List.drop_eq_nil_of_le (by omega)).symm

/-- A full drain of a fresh iterator yields the whole `sequence`. -/
theorem SequenceVal.drain_iter (v : SequenceVal T) :
    (v.iter).drain = v.sequence := by
  rw [SequenceValIter.drain_eq_aux (v.iter.owner.sequence.length - v.iter.cursor)
    v.iter le_rfl]
  rfl

/-- One call to `next` yields exactly the optional element at the cursor:
the bounds-guarded access agrees everywhere with the total optional
lookup, so the out-of-bounds access branch is unreachable. -/
theorem SequenceValIter.next_fst (it : SequenceValIter T) :
    (it.next).1 = it.owner.sequence[it.cursor]? := by
  unfold SequenceValIter.next
  split
  · next h =>
    dsimp only
    rw [List.get_eq_getElem, List.getElem?_eq_getElem h]
  · next h =>
    exact (List.getElem?_eq_none (by omega)).symm

/-- `k` calls to `next` keep the owner and move the cursor to
`min (cursor + k) length`, clamped so an exhausted cursor stays put. -/
theorem SequenceValIter.nextN_spec (k : Nat) :
    ∀ it : SequenceValIter T,
      (it.nextN k).owner = it.owner ∧
      (it.nextN k).cursor =
        min (it.cursor + k) (max it.cursor it.owner.sequence.length) := by
  induction k with
  | zero =>
    intro it
    exact ⟨rfl, by simp [SequenceValIter.nextN]⟩
  | succ k ih =>
    intro it
    rw [SequenceValIter.nextN]
    unfold SequenceValIter.next
    split
    · next hlt =>
      obtain ⟨ho, hc⟩ := ih { it with cursor := it.cursor + 1 }
      refine ⟨ho, ?_⟩
      rw [hc]
      simp only
      omega
    · next hge =>
      obtain ⟨ho, hc⟩ := ih it
      refine ⟨ho, ?_⟩
      rw [hc]
      omega

/-- Pushing a list of chunks, left to right, appends their concatenation
and leaves `prev`/`next` alone. -/
def SequenceBuilder.pushAll (b : SequenceBuilder T) (ls : List (List T)) :
    SequenceBuilder T :=
  ls.foldl SequenceBuilder.push b

theorem SequenceBuilder.pushAll_spec (ls : List (List T)) :
    ∀ b : SequenceBuilder T,
      b.pushAll ls = { b with sequence := b.sequence ++ ls.flatten } := by
  induction ls with
  | nil =>
    intro b
    simp [SequenceBuilder.pushAll]
  | cons l ls ih =>
    intro b
    show (b.push l).pushAll ls = _
    rw [ih]
    simp [SequenceBuilder.push]

/-! ## Claims -/

/-- C1: for `head`, `tail` with `head.next = None` and `tail.prev = None`,
`concat` returns a `SequenceVal` whose `sequence` is the elements yielded
by iterating `head` followed by those yielded by iterating `tail`
(= `head.sequence ++ tail.sequence`), whose `prev` is `head.prev` and
whose `next` is `tail.next`. -/
theorem concat_ok_spec (T : Type) (head tail : SequenceVal T)
    (h1 : head.next = none) (h2 : tail.prev = none) :
    concat head tail =
      Except.ok { sequence := head.sequence ++ tail.sequence,
                  prev := head.prev, next := tail.next } := by
  unfold concat
  rw [h1, h2]
  simp [SequenceVal.drain_iter]

/-- Witness for C1 at `head = ⟨[1,2], none, none⟩`,
`tail = ⟨[3,4], none, some 7⟩`. -/
theorem concat_ok_spec_witness :
    concat (⟨[1, 2], none, none⟩ : SequenceVal Nat) ⟨[3, 4], none, some 7⟩ =
      Except.ok ⟨[1, 2, 3, 4], none, some 7⟩ := by
  have h := concat_ok_spec Nat ⟨[1, 2], none, none⟩ ⟨[3, 4], none, some 7⟩ rfl rfl
  simpa using h

/-- C2: from a default builder, any sequence of `push` calls appending
`L1, …, Ln` makes `build().sequence` the concatenation `L1 ++ … ++ Ln`,
and `prev`/`next` of the built value stay `None`. -/
theorem push_build_spec (T : Type) (ls : List (List T)) :
    ((SequenceBuilder.default T).pushAll ls).build =
      { sequence := ls.flatten, prev := none, next := none } := by
  rw [SequenceBuilder.pushAll_spec]
  simp [SequenceBuilder.default, SequenceBuilder.build]

/-- C3: the `k`-th call to `next` on a fresh iterator over `v` yields the
`k`-th element of `v.sequence` when it exists and `none` from the length
on (so the iterator yields exactly the elements in order, once each, and
an exhausted iterator stays exhausted); draining yields `v.sequence`. -/
theorem iter_next_spec (T : Type) (v : SequenceVal T) (k : Nat) :
    (((v.iter).nextN k).next).1 = v.sequence[k]? ∧
      (v.iter).drain = v.sequence := by
  refine ⟨?_, SequenceVal.drain_iter v⟩
  obtain ⟨ho, hc⟩ := SequenceValIter.nextN_spec k v.iter
  simp only [SequenceVal.iter] at ho hc
  show ((v.iter.nextN k).next).1 = v.sequence[k]?
  rw [SequenceValIter.next_fst]
  simp only [SequenceVal.iter]
  rw [ho, hc]
  rcases Nat.lt_or_ge k v.sequence.length with hlt | hge
  · congr 1
    omega
  · rw [List.getElem?_eq_none (by omega), List.getElem?_eq_none (by omega)]


/-- C4: `concat` with `head.next` occupied or `tail.prev` occupied halts
fatally (panics) before building any buffer; it produces no result value. -/
theorem concat_panic_spec (T : Type) (head tail : SequenceVal T)
    (h : (head.next).isSome ∨ (tail.prev).isSome) :
    ∃ msg, concat head tail = Except.error msg := by
  unfold concat
  rcases h with h | h
  · rw [if_pos h]
    exact ⟨_, rfl⟩
  · by_cases hh : (head.next).isSome
    · rw [if_pos hh]
      exact ⟨_, rfl⟩
    · rw [if_neg hh, if_pos h]
      exact ⟨_, rfl⟩

/-- Witness for C4 at a `head` whose `next` is occupied. -/
theorem concat_panic_spec_witness :
    ∃ msg, concat (⟨[1], none, some 3⟩ : SequenceVal Nat) ⟨[2], none, none⟩ =
      Except.error msg :=
  concat_panic_spec Nat ⟨[1], none, some 3⟩ ⟨[2], none, none⟩ (Or.inl rfl)

/-- C5: `link` on two node references with `first.next = None` and
`second.prev = None` succeeds; afterwards `first`'s `next` slot references
`second`'s node, `second`'s `prev` slot references `first`'s node, and
neither node's `sequence` changes. -/
theorem link_ok_spec (T : Type) (heap : Heap T) (first second : Nat)
    (h1 : (heap.get first).next = none) (h2 : (heap.get second).prev = none) :
    (link heap first second).1 = Except.ok () ∧
      (((link heap first second).2).get first).next = some second ∧
      (((link heap first second).2).get second).prev = some first ∧
      (((link heap first second).2).get first).sequence =
        (heap.get first).sequence ∧
      (((link heap first second).2).get second).sequence =
        (heap.get second).sequence := by
  unfold link
  rw [h1, h2]
  by_cases hfs : first = second
  · subst hfs
    simp [Heap.set, Heap.get]
  · simp [Heap.set, Heap.get, hfs, Ne.symm hfs]

/-- Witness for C5 on a two-node store of singleton segments. -/
theorem link_ok_spec_witness :
    (link (fun i => ⟨[i], none, none⟩ : Heap Nat) 0 1).1 = Except.ok () ∧
      (((link (fun i => ⟨[i], none, none⟩ : Heap Nat) 0 1).2).get 0).next =
        some 1 ∧
      (((link (fun i => ⟨[i], none, none⟩ : Heap Nat) 0 1).2).get 1).prev =
        some 0 ∧
      (((link (fun i => ⟨[i], none, none⟩ : Heap Nat) 0 1).2).get 0).sequence =
        [0] ∧
      (((link (fun i => ⟨[i], none, none⟩ : Heap Nat) 0 1).2).get 1).sequence =
        [1] :=
  link_ok_spec Nat (fun i => ⟨[i], none, none⟩) 0 1 rfl rfl

/-- C6: `link` with `first`'s `next` occupied or `second`'s `prev` occupied
halts fatally and mutates nothing: both checks precede both assignments,
so the store at the panic is exactly the store before the call. -/
theorem link_panic_spec (T : Type) (heap : Heap T) (first second : Nat)
    (h : ((heap.get first).next).isSome ∨ ((heap.get second).prev).isSome) :
    (∃ msg, (link heap first second).1 = Except.error msg) ∧
      (link heap first second).2 = heap := by
  unfold link
  rcases h with h | h
  · rw [if_pos h]
    exact ⟨⟨_, rfl⟩, rfl⟩
  · by_cases hh : ((heap.get first).next).isSome
    · rw [if_pos hh]
      exact ⟨⟨_, rfl⟩, rfl⟩
    · rw [if_neg hh, if_pos h]
      exact ⟨⟨_, rfl⟩, rfl⟩

/-- Witness for C6 on a store whose node 1 already has a `prev` link. -/
theorem link_panic_spec_witness :
    (∃ msg, (link (fun i => ⟨[i], some 9, none⟩ : Heap Nat) 0 1).1 =
      Except.error msg) ∧
      (link (fun i => ⟨[i], some 9, none⟩ : Heap Nat) 0 1).2 =
        (fun i => ⟨[i], some 9, none⟩ : Heap Nat) :=
  link_panic_spec Nat (fun i => ⟨[i], some 9, none⟩) 0 1 (Or.inr rfl)

/-- C7: under the `concat` precondition, the call leaves both operands
exactly as they were (pass-by-reference, read-only) and returns a freshly
constructed, independent segment value. -/
theorem concat_frame_spec (T : Type) (head tail : SequenceVal T)
    (h1 : head.next = none) (h2 : tail.prev = none) :
    concatProc head tail =
      Except.ok ({ sequence := head.sequence ++ tail.sequence,
                   prev := head.prev, next := tail.next },
                 head, tail) := by
  unfold concatProc
  rw [h1, h2]
  simp [SequenceVal.drain_iter]

/-- Witness for C7 at two concrete segments. -/
theorem concat_frame_spec_witness :
    concatProc (⟨[1], some 4, none⟩ : SequenceVal Nat) ⟨[2], none, some 5⟩ =
      Except.ok (⟨[1, 2], some 4, some 5⟩,
                 ⟨[1], some 4, none⟩, ⟨[2], none, some 5⟩) := by
  have h := concat_frame_spec Nat ⟨[1], some 4, none⟩ ⟨[2], none, some 5⟩ rfl rfl
  simpa using h

/-- C8: `build` is idempotent and non-destructive: a call leaves the
builder unchanged, and a second call on that unchanged builder returns a
value with identical contents. -/
theorem build_idempotent_spec (T : Type) (b : SequenceBuilder T) :
    ((b.buildProc).2 = b) ∧
      (((b.buildProc).2).buildProc).1 = (b.buildProc).1 :=
  ⟨rfl, rfl⟩

/-- C9: `push`, `build` and the iterator's `next` are total: on every
input they return normally, `push` appending its whole argument, `build`
copying the builder's fields, and `next` — whose element access is
guarded by the `cursor < length` check — agreeing everywhere with the
total optional lookup, so the out-of-bounds branch is unreachable. -/
theorem total_ops_spec (T : Type) (b : SequenceBuilder T) (raw : List T)
    (it : SequenceValIter T) :
    (b.push raw).sequence = b.sequence ++ raw ∧
      (b.build).sequence = b.sequence ∧
      (it.next).1 = it.owner.sequence[it.cursor]? :=
  ⟨rfl, rfl, SequenceValIter.next_fst it⟩

/-- C10: `link` never checks that its two arguments are distinct nodes:
on a node `x` with both edges free, `link x x` succeeds and afterwards
`x`'s `next` and `prev` both reference `x` itself (a one-node self-loop),
with `x`'s `sequence` unchanged. -/
theorem link_self_spec (T : Type) (heap : Heap T) (x : Nat)
    (h1 : (heap.get x).next = none) (h2 : (heap.get x).prev = none) :
    (link heap x x).1 = Except.ok () ∧
      (((link heap x x).2).get x).next = some x ∧
      (((link heap x x).2).get x).prev = some x ∧
      (((link heap x x).2).get x).sequence = (heap.get x).sequence := by
  unfold link
  rw [h1, h2]
  simp [Heap.set, Heap.get]

/-- Witness for C10 on a one-interesting-node store. -/
theorem link_self_spec_witness :
    (link (fun _ => ⟨[7], none, none⟩ : Heap Nat) 0 0).1 = Except.ok () ∧
      (((link (fun _ => ⟨[7], none, none⟩ : Heap Nat) 0 0).2).get 0).next =
        some 0 ∧
      (((link (fun _ => ⟨[7], none, none⟩ : Heap Nat) 0 0).2).get 0).prev =
        some 0 ∧
      (((link (fun _ => ⟨[7], none, none⟩ : Heap Nat) 0 0).2).get 0).sequence =
        [7] :=
  link_self_spec Nat (fun _ => ⟨[7], none, none⟩) 0 rfl rfl

end RattleTree
